import Mathlib

/-!
Verification of the bharat-connect multi-agent RSS discovery pipeline.

Shallow embedding of the Python sources under src/agents/:
validation_store.py, validator_agent.py, rag_agent.py, learning_agent.py,
coordinator.py and diksha_discovery_agent.py.

Modelling conventions:
- Python str is modelled as List Char (a sequence of unicode code points),
  written PyStr. Built-in Lean String operations are avoided because the
  embedding must stay kernel-computable.
- Python int is modelled as Int where the source annotates int and the value
  can be negative; counts produced by len() are modelled as Nat.
- Python float arithmetic on ratios is modelled exactly in Rat.
- External effects (HTTP fetches via requests, LLM calls via Vertex AI,
  json.loads / json.dumps, datetime.now) are modelled as explicit oracle
  arguments: the embedding describes the control flow of the Python code for
  every possible outcome of those calls.
- SQLite is modelled as an explicit table state (list of rows plus the next
  AUTOINCREMENT id and the set of created indexes).
-/

/-- Python str: a sequence of code points. -/
abbrev PyStr := List Char

namespace PyStr

/-- Python str.strip(): remove leading and trailing whitespace. -/
def pyTrim (s : PyStr) : PyStr :=
  ((s.dropWhile Char.isWhitespace).reverse.dropWhile Char.isWhitespace).reverse

/-- Python str.lower() (per code point). -/
def pyLower (s : PyStr) : PyStr := s.map Char.toLower

/-- Python substring test, needle in hay. -/
def containsSub (needle : PyStr) : PyStr → Bool
  | [] => needle.isEmpty
  | c :: t => needle.isPrefixOf (c :: t) || containsSub needle t

/-- Lexicographic less-or-equal on code point sequences; models the byte-wise
BINARY collation SQLite uses to order TEXT columns (UTF-8 byte order agrees
with code point order). -/
def lexLe : PyStr → PyStr → Bool
  | [], _ => true
  | _ :: _, [] => false
  | a :: as, b :: bs => if a < b then true else if a = b then lexLe as bs else false

/-- Python list slicing l[:m] for an int m: a non-negative m keeps the first
m elements, a negative m drops the last |m| elements. -/
def pySliceTo (l : List α) (m : Int) : List α :=
  if 0 ≤ m then l.take m.toNat else l.take (l.length - (-m).toNat)

/-- Python list slicing l[i:] for an int i: a non-negative i drops the first
i elements, a negative i keeps the last |i| elements (clamped). -/
def pySliceFrom (l : List α) (i : Int) : List α :=
  if 0 ≤ i then l.drop i.toNat else l.drop (l.length - (-i).toNat)

/-- Decimal digits of a Nat, via a structural fuel argument so that the
definition is kernel-computable. -/
def natDigitsAux : Nat → Nat → List Char
  | 0, _ => []
  | fuel + 1, n =>
    if n = 0 then []
    else
      natDigitsAux fuel (n / 10) ++
        [match n % 10 with
         | 0 => '0' | 1 => '1' | 2 => '2' | 3 => '3' | 4 => '4'
         | 5 => '5' | 6 => '6' | 7 => '7' | 8 => '8' | _ => '9']

/-- Decimal rendering of a Nat (Python str(n) for non-negative n). -/
def natToPyStr (n : Nat) : PyStr :=
  if n = 0 then ['0'] else natDigitsAux (n + 1) n

end PyStr

open PyStr

/-! ## src/agents/validation_store.py

SQLite-backed store for validation reports. The validations table is
modelled as a list of rows plus the next AUTOINCREMENT id; the CREATE INDEX
statements of _init_db are modelled as a list of (index name, column) pairs.
The report column stores the raw json.dumps text. -/

namespace ValidationStore

/-- One row of the validations table (schema of _init_db). The valid column
is an INTEGER (int(bool(valid)) is stored), quality_score a nullable REAL,
run_id a nullable TEXT and report the serialized JSON text. -/
structure Row where
  id : Nat
  url : PyStr
  timestamp : PyStr
  source : PyStr
  validator : PyStr
  valid : Int
  qualityScore : Option ℚ
  runId : Option PyStr
  report : PyStr
  deriving DecidableEq, Repr

/-- State of the SQLite database file behind ValidationStore. -/
structure DB where
  rows : List Row
  nextId : Nat
  indexes : List (PyStr × PyStr)
  deriving DecidableEq, Repr

/-- CREATE INDEX IF NOT EXISTS: add the (name, column) pair unless present. -/
def addIndex (idx : PyStr × PyStr) (l : List (PyStr × PyStr)) : List (PyStr × PyStr) :=
  if idx ∈ l then l else l ++ [idx]

/-- ValidationStore._init_db: CREATE TABLE IF NOT EXISTS (no row change) and
the two CREATE INDEX IF NOT EXISTS statements on url and on timestamp. -/
def initDb (db : DB) : DB :=
  { db with
    indexes :=
      addIndex ("idx_validations_ts".data, "timestamp".data)
        (addIndex ("idx_validations_url".data, "url".data) db.indexes) }

/-- ValidationStore.save_report: a single INSERT of one new row; the fresh
AUTOINCREMENT id is returned (cur.lastrowid). The ts argument is the
datetime.utcnow().isoformat() oracle and reportJson the json.dumps text of
the report argument. -/
def saveReport (db : DB) (url source validator : PyStr) (valid : Bool)
    (reportJson : PyStr) (qualityScore : Option ℚ) (runId : Option PyStr)
    (ts : PyStr) : Nat × DB :=
  let row : Row :=
    { id := db.nextId
      url := url
      timestamp := ts
      source := source
      validator := validator
      valid := if valid then 1 else 0
      qualityScore := qualityScore
      runId := runId
      report := reportJson }
  (db.nextId, { db with rows := db.rows ++ [row], nextId := db.nextId + 1 })

/-- Ordering used by ORDER BY timestamp DESC: a row comes first when its
timestamp is lexicographically greater or equal. -/
def tsDesc (a b : Row) : Prop := lexLe b.timestamp a.timestamp = true

instance : DecidableRel tsDesc := fun a b => by unfold tsDesc; infer_instance

/-- Record shape returned by ValidationStore.fetch_recent: the report column
has been run through json.loads, falling back to the empty dict. The parsed
JSON object is modelled as an association list. -/
structure FetchedRecord where
  id : Nat
  url : PyStr
  timestamp : PyStr
  source : PyStr
  validator : PyStr
  valid : Bool
  qualityScore : Option ℚ
  runId : Option PyStr
  report : List (PyStr × PyStr)
  deriving DecidableEq, Repr

/-- Rows selected by the fetch_recent query: ORDER BY timestamp DESC then
LIMIT. SQLite treats a negative LIMIT as no limit at all. -/
def selectRows (db : DB) (limit : Int) : List Row :=
  let sorted := List.insertionSort tsDesc db.rows
  if limit < 0 then sorted else sorted.take limit.toNat

/-- Conversion of one row into the dict fetch_recent builds, with the
json.loads call modelled by the loads oracle and the try/except fallback to
the empty dict. bool(r[5]) is true for any non-zero integer. -/
def toFetched (loads : PyStr → Option (List (PyStr × PyStr))) (r : Row) : FetchedRecord :=
  { id := r.id
    url := r.url
    timestamp := r.timestamp
    source := r.source
    validator := r.validator
    valid := r.valid ≠ 0
    qualityScore := r.qualityScore
    runId := r.runId
    report := (loads r.report).getD [] }

/-- ValidationStore.fetch_recent. -/
def fetchRecent (loads : PyStr → Option (List (PyStr × PyStr))) (db : DB)
    (limit : Int) : List FetchedRecord :=
  (selectRows db limit).map (toFetched loads)

end ValidationStore

/-! ## src/agents/learning_agent.py

LearningAgent keeps an in-memory iteration history. The report dicts and
the learned-pattern dict that analyze_iteration stores are treated opaquely
by the embedded functions, so they are type parameters Rep and Pat. The
insights list (lines 111 to 116 of the source) is bookkeeping on a separate
field that neither claim touches and is not modelled. -/

namespace Learning

/-- Iteration record appended to LearningAgent.iteration_history by
analyze_iteration. -/
structure IterRecord (Rep Pat : Type) where
  iteration : Int
  domain : PyStr
  timestamp : PyStr
  candidatesGenerated : Int
  candidatesValidated : Int
  newFeedsFound : Int
  successRate : ℚ
  generationEfficiency : ℚ
  strategy : PyStr
  patterns : Pat
  validatedReports : List Rep
  rejectedReports : List Rep

/-- LearningAgent.analyze_iteration, restricted to its effect on the
iteration history: when validated_reports is supplied, candidates_validated
is replaced by its length; the success rate and generation efficiency are
computed with a max(1, _) guard; exactly one record is appended. Returns
the new history together with the record. -/
def analyzeIteration {Rep Pat : Type} (iterationNum : Int) (domain : PyStr)
    (candidatesGenerated candidatesValidated newFeedsFound : Int)
    (patterns : Pat) (strategy : PyStr)
    (validatedReports rejectedReports : Option (List Rep))
    (now : PyStr) (history : List (IterRecord Rep Pat)) :
    List (IterRecord Rep Pat) × IterRecord Rep Pat :=
  let cv : Int :=
    match validatedReports with
    | some l => (l.length : Int)
    | none => candidatesValidated
  let successRate : ℚ := (newFeedsFound : ℚ) / ((max 1 cv : Int) : ℚ)
  let generationEfficiency : ℚ :=
    (newFeedsFound : ℚ) / ((max 1 candidatesGenerated : Int) : ℚ)
  let record : IterRecord Rep Pat :=
    { iteration := iterationNum
      domain := domain
      timestamp := now
      candidatesGenerated := candidatesGenerated
      candidatesValidated := cv
      newFeedsFound := newFeedsFound
      successRate := successRate
      generationEfficiency := generationEfficiency
      strategy := strategy
      patterns := patterns
      validatedReports := validatedReports.getD []
      rejectedReports := rejectedReports.getD [] }
  (history ++ [record], record)

/-- Assessment dict returned by LearningAgent.get_convergence_assessment. -/
structure Assessment where
  converging : Bool
  reason : PyStr
  confidence : ℚ
  recommendation : PyStr
  deriving DecidableEq, Repr

/-- LearningAgent.get_convergence_assessment. The recent window is the
Python slice history[-recent_iterations:]; when that window is empty the
average computation raises ZeroDivisionError, modelled as Except.error. -/
def getConvergenceAssessment {Rep Pat : Type} (recentIterations : Int)
    (history : List (IterRecord Rep Pat)) : Except Unit Assessment :=
  if (history.length : Int) < recentIterations then
    .ok { converging := false
          reason := "Not enough iterations".data
          confidence := 0
          recommendation := "Continue iterations".data }
  else
    let recent := pySliceFrom history (-recentIterations)
    let recentFeeds := recent.map (·.newFeedsFound)
    if recentFeeds.length = 0 then .error ()
    else
      let allZero := recentFeeds.all (· == 0)
      let avgRecent : ℚ := ((recentFeeds.sum : Int) : ℚ) / (recentFeeds.length : ℚ)
      if allZero then
        .ok { converging := true
              reason := "No new feeds found in recent iterations".data
              confidence := 0.95
              recommendation := "Stop discovery".data }
      else if avgRecent < 1 then
        .ok { converging := true
              reason := "Diminishing returns detected".data
              confidence := 0.80
              recommendation := "1-2 more iterations then stop".data }
      else if avgRecent < 3 then
        .ok { converging := true
              reason := "Gradual reduction in new feeds".data
              confidence := 0.60
              recommendation := "Continue 2-3 more iterations".data }
      else
        .ok { converging := false
              reason := "Good discovery rate maintained".data
              confidence := 0.70
              recommendation := "Continue iterations".data }

end Learning

/-! ## src/agents/rag_agent.py -/

namespace RAG

/-- Entry of RAGAgent.stats["iterations"], as built by run_iteration. The
report lists are opaque to the convergence check and are not carried. -/
structure RagIter where
  iteration : Nat
  candidatesGenerated : Nat
  validatedCount : Nat
  rejectedCount : Nat
  newFeedsFound : Nat
  totalFeeds : Nat
  deriving DecidableEq, Repr

/-- The part of RAGAgent state consulted by should_stop_iteration. -/
structure RagState where
  iterationCount : Nat
  iterations : List RagIter
  deriving DecidableEq, Repr

/-- RAGAgent.should_stop_iteration: stop once at least two iterations ran
and the last two recorded iterations found no new feeds. -/
def shouldStopIteration (s : RagState) : Bool × PyStr :=
  if s.iterationCount < 2 then (false, "Need more iterations".data)
  else
    let recent := s.iterations.drop (s.iterations.length - 2)
    if recent.all (fun it => it.newFeedsFound == 0) then
      (true, "No new feeds in last 2 iterations".data)
    else (false, "Still discovering feeds".data)

/-- Query-parameter value as found in the learned-pattern dicts: either
Python None or a string. -/
abbrev PVal := Option PyStr

/-- Per-parameter info of the learned patterns; _generate_systematic reads
only the observed_values list. -/
structure ParamInfo where
  observedValues : List PVal
  deriving DecidableEq

/-- The learned-pattern dict held by IntelligentURLGenerator. Only the
suggestions and parameters keys are read by generation; any other keys are
kept as extraKeys because they matter to the dict emptiness test. A
missing key is none, a present key carries its value. -/
structure Patterns where
  suggestions : Option (List (List (PyStr × PVal)))
  parameters : Option (List (PyStr × ParamInfo))
  extraKeys : List PyStr
  deriving DecidableEq

/-- Python truthiness test `not self.patterns` on the pattern dict. -/
def Patterns.isEmptyDict (p : Patterns) : Bool :=
  p.suggestions.isNone && p.parameters.isNone && p.extraKeys.isEmpty

/-- A candidate URL: the base part before the query string, and the parsed
query pairs. urlencode and parse_qsl round-trip between this list and the
query string of the flat URL text. -/
structure GenUrl where
  base : PyStr
  query : List (PyStr × PyStr)
  deriving DecidableEq, Repr

/-- IntelligentURLGenerator._build_url: keep the base before the first
question mark, drop parameters whose value is None, the empty string or the
literal string None, and urlencode the rest in order. -/
def buildUrl (baseUrl : PyStr) (params : List (PyStr × PVal)) : GenUrl :=
  { base := baseUrl.takeWhile (· ≠ '?')
    query := params.filterMap (fun kv =>
      match kv.2 with
      | none => none
      | some v => if v = [] ∨ v = "None".data then none else some (kv.1, v)) }

/-- IntelligentURLGenerator._strip_internal_params: drop query parameters
whose lowercased name is confidence or reasoning. -/
def stripInternalParams (u : GenUrl) : GenUrl :=
  { base := u.base
    query := u.query.filter (fun kv =>
      !(pyLower kv.1 == "confidence".data || pyLower kv.1 == "reasoning".data)) }

/-- IntelligentURLGenerator._generate_from_suggestions: one URL per
suggestion dict, with the confidence and reasoning keys removed by exact
name before building. -/
def generateFromSuggestions (baseUrl : PyStr) (p : Patterns) : List GenUrl :=
  (p.suggestions.getD []).map (fun s =>
    buildUrl baseUrl (s.filter (fun kv =>
      !(kv.1 == "confidence".data || kv.1 == "reasoning".data))))

/-- itertools.product over a list of value lists, rightmost factor varying
fastest. The product of no lists is the single empty combination. -/
def cartesianProduct : List (List α) → List (List α)
  | [] => [[]]
  | l :: ls => (l.map (fun x => (cartesianProduct ls).map (x :: ·))).flatten

/-- IntelligentURLGenerator._generate_systematic: cartesian product over
the first five observed values of each learned parameter, stopping after
25 URLs. -/
def generateSystematic (baseUrl : PyStr) (p : Patterns) : List GenUrl :=
  let parameters := p.parameters.getD []
  if parameters.isEmpty then []
  else
    let paramNames := parameters.map Prod.fst
    let paramValueLists := parameters.map (fun kv => kv.2.observedValues.take 5)
    ((cartesianProduct paramValueLists).take 25).map
      (fun combination => buildUrl baseUrl (paramNames.zip combination))

/-- Deduplication loop of generate_candidates: keep the first occurrence of
each cleaned URL, tracked through a seen set. -/
def dedupKeepFirst (seen : List GenUrl) : List GenUrl → List GenUrl
  | [] => []
  | u :: rest =>
    if seen.contains u then dedupKeepFirst seen rest
    else u :: dedupKeepFirst (u :: seen) rest

/-- IntelligentURLGenerator.generate_candidates: empty result on an empty
pattern dict; otherwise generate per strategy (any string other than
suggested or systematic means hybrid), strip internal parameters, drop
duplicates keeping first occurrences, and apply the max_candidates slice. -/
def generateCandidates (baseUrl : PyStr) (p : Patterns) (strategy : PyStr)
    (maxCandidates : Int) : List GenUrl :=
  if p.isEmptyDict then []
  else
    let candidates :=
      if strategy = "suggested".data then generateFromSuggestions baseUrl p
      else if strategy = "systematic".data then generateSystematic baseUrl p
      else generateFromSuggestions baseUrl p ++ generateSystematic baseUrl p
    pySliceTo (dedupKeepFirst [] (candidates.map stripInternalParams)) maxCandidates

end RAG

/-! ## src/agents/coordinator.py

Final result compilation. Feed entries are either dicts, URL strings or
other objects; the dict payload type D is abstract with an oracle getUrl
modelling feed.get("url") (none when the key is missing or maps to None). -/

namespace Coordinator

/-- One element of all_discovered_feeds or validated_feeds. -/
inductive PyFeed (D : Type) where
  | dct (d : D)
  | str (s : PyStr)
  | other
  deriving DecidableEq

/-- URL extraction step of the dedup loop of _phase_final_analysis. -/
def urlOf {D : Type} (getUrl : D → Option PyStr) : PyFeed D → Option PyStr
  | .dct d => getUrl d
  | .str s => some s
  | .other => none

/-- The value stored into unique_feeds for a feed entry: the dict itself
when the entry is a dict, otherwise the wrapper dict with a url key, here
written as the bare URL on the right of the sum. -/
def entryOf {D : Type} : PyFeed D → D ⊕ PyStr
  | .dct d => Sum.inl d
  | .str s => Sum.inr s
  | .other => Sum.inr []

/-- One step of the dedup loop: skip entries without a truthy URL, keep the
first entry seen for each URL. -/
def addFeed {D : Type} (getUrl : D → Option PyStr)
    (acc : List (PyStr × (D ⊕ PyStr))) (f : PyFeed D) :
    List (PyStr × (D ⊕ PyStr)) :=
  match urlOf getUrl f with
  | none => acc
  | some u =>
    if u = [] then acc
    else if (acc.map Prod.fst).contains u then acc
    else acc ++ [(u, entryOf f)]

/-- The unique_feeds dict of _phase_final_analysis, as an association list
in insertion order, built over all_discovered_feeds ++ validated_feeds. -/
def uniqueFeeds {D : Type} (getUrl : D → Option PyStr)
    (combinedSources : List (PyFeed D)) : List (PyStr × (D ⊕ PyStr)) :=
  combinedSources.foldl (addFeed getUrl) []

/-- The discovered_feeds list of the final results:
list(unique_feeds.values()). -/
def discoveredFeeds {D : Type} (getUrl : D → Option PyStr)
    (allDiscoveredFeeds validatedFeeds : List (PyFeed D)) : List (D ⊕ PyStr) :=
  (uniqueFeeds getUrl (allDiscoveredFeeds ++ validatedFeeds)).map Prod.snd

end Coordinator

/-! ## src/agents/diksha_discovery_agent.py

Checkpointed systematic discovery. The DIKSHA search API behind
discover_with_pagination is an oracle from a (board, grade, subject,
medium) combination to the content list it yields; checkpoint files are
modelled as the set of checkpoint keys present in the checkpoint
directory. -/

namespace Diksha

/-- A (board, grade, subject, medium) combination; medium None means all
languages. -/
structure Combo where
  board : PyStr
  grade : PyStr
  subject : PyStr
  medium : Option PyStr
  deriving DecidableEq, Repr

/-- Checkpoint key of a combination: the f-string
board_grade_subject_(medium or all). A falsy medium (None or the empty
string) renders as all. -/
def keyOf (c : Combo) : PyStr :=
  c.board ++ "_".data ++ c.grade ++ "_".data ++ c.subject ++ "_".data ++
    (match c.medium with
     | some m => if m = [] then "all".data else m
     | none => "all".data)

/-- What happened to one combination inside discover_systematic: either it
was skipped before any API request because its checkpoint existed, or the
API was queried, returning content, and a checkpoint was saved exactly when
that content was non-empty. -/
inductive Act (C : Type) where
  | skipped
  | requested (content : List C) (saved : Bool)
  deriving DecidableEq

/-- The checkpoint-relevant behaviour of DIKSHADiscoveryAgent
.discover_systematic over a list of combinations: threads the set of
checkpoint files (as keys) and records per combination what happened.
contentOf is the discover_with_pagination oracle. -/
def runSystematic {C : Type} (contentOf : Combo → List C)
    (checkpoints : List PyStr) : List Combo → List PyStr × List (Combo × Act C)
  | [] => (checkpoints, [])
  | c :: rest =>
    let k := keyOf c
    if checkpoints.contains k then
      let r := runSystematic contentOf checkpoints rest
      (r.1, (c, .skipped) :: r.2)
    else
      let content := contentOf c
      let saved := !content.isEmpty
      let checkpoints' := if saved then checkpoints ++ [k] else checkpoints
      let r := runSystematic contentOf checkpoints' rest
      (r.1, (c, .requested content saved) :: r.2)

end Diksha

/-! ## src/agents/validator_agent.py

AIValidatorAgent.validate_feed. The HTTP fetch and the Gemini assessment
are oracles: FetchOutcome is the outcome of requests.get(url), and the
assessment oracle is the outcome of _assess_with_gemini (an assessment
dict, which includes the internal fallback paths of that helper, or a
raised exception text for its non-retryable errors). -/

namespace Validator

/-- Outcome of requests.get(url, timeout=...): a Timeout exception, any
other exception with its message, or a response with status code and body
text. -/
inductive FetchOutcome where
  | timeout
  | connErr (msg : PyStr)
  | success (status : Nat) (text : PyStr)
  deriving DecidableEq

/-- Assessment dict returned by _assess_with_gemini (keys score, reasoning,
feed_type, content_type, update_frequency, recommendation). -/
structure Assessment where
  score : Int
  reasoning : PyStr
  feedType : PyStr
  contentType : PyStr
  updateFrequency : PyStr
  recommendation : PyStr
  deriving DecidableEq, Repr

/-- The validation report dict. Keys that a given code path never sets are
modelled by their default field values (score 0, empty lists, no HTTP
status); report.update(ai_assessment) fills the assessment fields. -/
structure Report where
  url : PyStr
  timestamp : PyStr
  valid : Bool := false
  score : Int := 0
  reasoning : PyStr := []
  errors : List PyStr := []
  warnings : List PyStr := []
  httpStatus : Option Nat := none
  feedType : PyStr := []
  contentType : PyStr := []
  updateFrequency : PyStr := []
  recommendation : PyStr := []
  deriving DecidableEq, Repr

/-- Input of validate_feed: a URL string, or a feed dict from a checkpoint
whose url key is extracted with url.get("url", ""). -/
inductive FeedInput where
  | str (s : PyStr)
  | dct (u : Option PyStr)
  deriving DecidableEq

/-- Mutable state of one AIValidatorAgent instance that validate_feed
touches: the validation cache, the accumulated report lists, and the
optional persistence store (None when ValidationStore raised at init). -/
structure VState where
  cache : List (PyStr × (Bool × Report))
  validatedFeeds : List Report
  rejectedFeeds : List Report
  store : Option ValidationStore.DB
  deriving DecidableEq

/-- External actions performed during one validate_feed call. -/
structure Effects where
  httpFetches : Nat
  llmCalls : Nat
  storeSaves : Nat
  deriving DecidableEq, Repr

/-- AIValidatorAgent._is_feed_format: any of the four signatures occurs in
the first 2000 characters of the lowercased content. -/
def isFeedFormat (content : PyStr) : Bool :=
  ["<rss".data, "<feed".data, "<?xml".data, "xmlns".data].any
    (fun sig => containsSub sig ((pyLower content).take 2000))

/-- The self.store.save_report call (validator is the literal ai); a
missing store is skipped, matching the getattr guard. dumps is the
json.dumps oracle and utcNow the timestamp oracle of save_report. -/
def saveToStore (dumps : Report → PyStr) (utcNow : PyStr) (source : PyStr)
    (runId : Option PyStr) (url : PyStr) (valid : Bool) (qs : Option ℚ)
    (r : Report) (st : Option ValidationStore.DB) :
    Option ValidationStore.DB × Nat :=
  match st with
  | none => (none, 0)
  | some db =>
    (some (ValidationStore.saveReport db url source "ai".data valid
      (dumps r) qs runId utcNow).2, 1)

/-- Shared tail of the early failure paths of validate_feed that run after
the cache check: record the pair in the cache, append the report to
rejected_feeds, persist it, and return (False, report). -/
def rejectAfterCache (dumps : Report → PyStr) (utcNow source : PyStr)
    (runId : Option PyStr) (url : PyStr) (r : Report) (s : VState)
    (fetches llmCalls : Nat) : (Bool × Report) × VState × Effects :=
  let saved := saveToStore dumps utcNow source runId url false none r s.store
  ((false, r),
   { s with
     cache := s.cache ++ [(url, (false, r))]
     rejectedFeeds := s.rejectedFeeds ++ [r]
     store := saved.1 },
   { httpFetches := fetches, llmCalls := llmCalls, storeSaves := saved.2 })

/-- AIValidatorAgent.validate_feed. Arguments now and utcNow are the
datetime.now().isoformat() and datetime.utcnow().isoformat() oracles,
fetch the requests.get oracle, assess the _assess_with_gemini oracle. -/
def validateFeed (minQualityScore : Int) (fetch : FetchOutcome)
    (assess : Except PyStr Assessment) (now utcNow : PyStr)
    (dumps : Report → PyStr) (input : FeedInput) (source : PyStr)
    (runId : Option PyStr) (s : VState) : (Bool × Report) × VState × Effects :=
  let core : PyStr → (Bool × Report) × VState × Effects := fun url0 =>
    let url := pyTrim url0
    if url = [] ∨ ¬ ("http".data.isPrefixOf url) then
      let r : Report :=
        { url := url, timestamp := now
          errors := ["Invalid URL format".data] }
      let saved := saveToStore dumps utcNow source runId url false none r s.store
      ((false, r), { s with store := saved.1 },
       { httpFetches := 0, llmCalls := 0, storeSaves := saved.2 })
    else
      match s.cache.lookup url with
      | some pr => (pr, s, { httpFetches := 0, llmCalls := 0, storeSaves := 0 })
      | none =>
        let base : Report := { url := url, timestamp := now }
        match fetch with
        | .timeout =>
          rejectAfterCache dumps utcNow source runId url
            { base with errors := ["HTTP request timeout".data] } s 1 0
        | .connErr msg =>
          rejectAfterCache dumps utcNow source runId url
            { base with errors := ["Connection failed: ".data ++ msg.take 50] } s 1 0
        | .success status text =>
          let content := text.take 5000
          let base' := { base with httpStatus := some status }
          if 400 ≤ status then
            rejectAfterCache dumps utcNow source runId url
              { base' with errors := ["HTTP ".data ++ natToPyStr status] } s 1 0
          else if ¬ isFeedFormat content then
            rejectAfterCache dumps utcNow source runId url
              { base' with errors := ["Not a valid RSS/Atom feed".data] } s 1 0
          else
            match assess with
            | .error e =>
              let r := { base' with
                errors := ["AI assessment failed: ".data ++ e.take 50] }
              ((false, r),
               { s with
                 cache := s.cache ++ [(url, (false, r))]
                 rejectedFeeds := s.rejectedFeeds ++ [r] },
               { httpFetches := 1, llmCalls := 1, storeSaves := 0 })
            | .ok a =>
              let updated := { base' with
                score := a.score
                reasoning := a.reasoning
                feedType := a.feedType
                contentType := a.contentType
                updateFrequency := a.updateFrequency
                recommendation := a.recommendation }
              let isValid :=
                decide (minQualityScore ≤ updated.score) &&
                  (updated.errors.length == 0)
              let final := { updated with valid := isValid }
              let saved := saveToStore dumps utcNow source runId url isValid
                (some (a.score : ℚ)) final s.store
              ((isValid, final),
               { s with
                 cache := s.cache ++ [(url, (isValid, final))]
                 validatedFeeds :=
                   if isValid then s.validatedFeeds ++ [final] else s.validatedFeeds
                 rejectedFeeds :=
                   if isValid then s.rejectedFeeds else s.rejectedFeeds ++ [final]
                 store := saved.1 },
               { httpFetches := 1, llmCalls := 1, storeSaves := saved.2 })
  match input with
  | .dct u =>
    let url := u.getD []
    if url = [] then
      let r : Report :=
        { url := url, timestamp := now
          errors := ["No URL in feed dictionary".data] }
      let saved := saveToStore dumps utcNow source runId url false none r s.store
      ((false, r), { s with store := saved.1 },
       { httpFetches := 0, llmCalls := 0, storeSaves := saved.2 })
    else core url
  | .str s0 => core s0

end Validator

/-! ## General lemmas about the base operations -/

theorem lexLe_total : ∀ a b : PyStr, lexLe a b = true ∨ lexLe b a = true := by
  intro a
  induction a with
  | nil => intro b; left; rfl
  | cons x xs ih =>
    intro b
    cases b with
    | nil => right; rfl
    | cons y ys =>
      simp only [lexLe]
      rcases lt_trichotomy x y with h | h | h
      · left; simp [h]
      · subst h
        simp only [lt_irrefl, if_false, if_pos rfl]
        rcases ih ys with h2 | h2
        · left; simpa using h2
        · right; simpa using h2
      · right; simp [h, not_lt_of_lt h, ne_of_gt h]

theorem lexLe_trans : ∀ a b c : PyStr,
    lexLe a b = true → lexLe b c = true → lexLe a c = true := by
  intro a
  induction a with
  | nil => intro b c _ _; rfl
  | cons x xs ih =>
    intro b c hab hbc
    cases b with
    | nil => simp [lexLe] at hab
    | cons y ys =>
      cases c with
      | nil => simp [lexLe] at hbc
      | cons z zs =>
        simp only [lexLe] at hab hbc ⊢
        by_cases hxy : x < y
        · by_cases hyz : y < z
          · simp [lt_trans hxy hyz]
          · simp only [if_neg hyz] at hbc
            by_cases hyz2 : y = z
            · subst hyz2; simp [hxy]
            · simp [hyz2] at hbc
        · simp only [if_neg hxy] at hab
          by_cases hxy2 : x = y
          · subst hxy2
            simp only [if_pos rfl] at hab
            by_cases hxz : x < z
            · simp [hxz]
            · simp only [if_neg hxz] at hbc ⊢
              by_cases hxz2 : x = z
              · subst hxz2
                simp only [if_pos rfl] at hbc ⊢
                exact ih ys zs hab hbc
              · simp [hxz2, hxz] at hbc
          · simp [hxy2] at hab

instance : IsTotal ValidationStore.Row ValidationStore.tsDesc :=
  ⟨fun a b => by
    unfold ValidationStore.tsDesc
    rcases lexLe_total b.timestamp a.timestamp with h | h
    · left; exact h
    · right; exact h⟩

instance : IsTrans ValidationStore.Row ValidationStore.tsDesc :=
  ⟨fun a b c hab hbc => by
    unfold ValidationStore.tsDesc at hab hbc ⊢
    exact lexLe_trans c.timestamp b.timestamp a.timestamp hbc hab⟩

theorem addIndex_mem (idx : PyStr × PyStr) (l : List (PyStr × PyStr)) :
    idx ∈ ValidationStore.addIndex idx l := by
  unfold ValidationStore.addIndex
  split
  · assumption
  · simp

theorem addIndex_mem_of_mem (idx j : PyStr × PyStr) (l : List (PyStr × PyStr))
    (h : j ∈ l) : j ∈ ValidationStore.addIndex idx l := by
  unfold ValidationStore.addIndex
  split
  · exact h
  · simp [h]

/-! ## Claim theorems -/

/-- C1: the validation report store is append-only. save_report performs a
single-row INSERT (the previous rows are preserved unchanged, one new row
is appended), it returns the fresh AUTOINCREMENT id of the inserted row,
_init_db touches no rows, and _init_db creates the url and timestamp
indexes on the validations table. fetch_recent is read-only by its type, so
no operation of the store updates or deletes an existing row. -/
theorem validation_store_append_only (db : ValidationStore.DB)
    (url source validator : PyStr) (valid : Bool) (reportJson : PyStr)
    (qs : Option ℚ) (runId : Option PyStr) (ts : PyStr) :
    (ValidationStore.saveReport db url source validator valid reportJson qs runId ts).2.rows
      = db.rows ++
        [{ id := db.nextId, url := url, timestamp := ts, source := source,
           validator := validator, valid := if valid then 1 else 0,
           qualityScore := qs, runId := runId, report := reportJson }]
    ∧ (ValidationStore.saveReport db url source validator valid reportJson qs runId ts).1
      = db.nextId
    ∧ (ValidationStore.saveReport db url source validator valid reportJson qs runId ts).2.nextId
      = db.nextId + 1
    ∧ (ValidationStore.saveReport db url source validator valid reportJson qs runId ts).2.indexes
      = db.indexes
    ∧ (ValidationStore.initDb db).rows = db.rows
    ∧ (ValidationStore.initDb db).nextId = db.nextId
    ∧ ("idx_validations_url".data, "url".data) ∈ (ValidationStore.initDb db).indexes
    ∧ ("idx_validations_ts".data, "timestamp".data) ∈ (ValidationStore.initDb db).indexes := by
  refine ⟨rfl, rfl, rfl, rfl, rfl, rfl, ?_, ?_⟩
  · exact addIndex_mem_of_mem _ _ _ (addIndex_mem _ _)
  · exact addIndex_mem _ _

/-- C4: RAGAgent.should_stop_iteration reports convergence exactly when at
least two iterations have completed and every one of the two most recent
recorded iterations found zero new feeds; with fewer than two completed
iterations it returns False with the need-more-iterations reason, and when
it stops it carries the no-new-feeds stop reason. -/
theorem rag_should_stop_iteration_iff (s : RAG.RagState) :
    ((RAG.shouldStopIteration s).1 = true ↔
      (2 ≤ s.iterationCount ∧
        ∀ it ∈ s.iterations.drop (s.iterations.length - 2), it.newFeedsFound = 0))
    ∧ (s.iterationCount < 2 →
        RAG.shouldStopIteration s = (false, "Need more iterations".data))
    ∧ ((RAG.shouldStopIteration s).1 = true →
        RAG.shouldStopIteration s = (true, "No new feeds in last 2 iterations".data)) := by
  unfold RAG.shouldStopIteration
  by_cases h2 : s.iterationCount < 2
  · simp [h2, Nat.not_le_of_lt h2]
  · simp only [if_neg h2]
    by_cases hall :
        (s.iterations.drop (s.iterations.length - 2)).all
          (fun it => it.newFeedsFound == 0) = true
    · simp only [if_pos hall]
      exact ⟨⟨fun _ => ⟨Nat.le_of_not_lt h2, by simpa [List.all_eq_true] using hall⟩,
              fun _ => trivial⟩,
             fun h => absurd h h2, fun _ => trivial⟩
    · simp only [if_neg hall]
      exact ⟨⟨fun h => absurd h Bool.false_ne_true,
              fun h => absurd (by simpa [List.all_eq_true] using h.2) hall⟩,
             fun h => absurd h h2, fun h => absurd h Bool.false_ne_true⟩
  
/-- C4 witness: with two completed iterations both finding zero new feeds,
should_stop_iteration reports convergence. -/
theorem rag_should_stop_iteration_iff_witness :
    (RAG.shouldStopIteration
      { iterationCount := 2
        iterations :=
          [{ iteration := 1, candidatesGenerated := 25, validatedCount := 0,
             rejectedCount := 25, newFeedsFound := 0, totalFeeds := 3 },
           { iteration := 2, candidatesGenerated := 25, validatedCount := 0,
             rejectedCount := 25, newFeedsFound := 0, totalFeeds := 3 }] }).1 = true :=
  (rag_should_stop_iteration_iff _).1.mpr ⟨by norm_num, by decide⟩

/-- C6: LearningAgent.analyze_iteration appends exactly one record to the
iteration history; in that record candidates_validated is replaced by the
length of validated_reports whenever that list is supplied, success_rate is
new_feeds_found / max(1, candidates_validated) and generation_efficiency is
new_feeds_found / max(1, candidates_generated). -/
theorem learning_analyze_iteration_appends {Rep Pat : Type} (iterationNum : Int)
    (domain : PyStr) (cg cv nf : Int) (patterns : Pat) (strategy : PyStr)
    (vr rr : Option (List Rep)) (now : PyStr)
    (history : List (Learning.IterRecord Rep Pat)) :
    (Learning.analyzeIteration iterationNum domain cg cv nf patterns strategy
        vr rr now history).1
      = history ++
        [(Learning.analyzeIteration iterationNum domain cg cv nf patterns strategy
            vr rr now history).2]
    ∧ (Learning.analyzeIteration iterationNum domain cg cv nf patterns strategy
        vr rr now history).2.candidatesValidated
      = (match vr with | some l => (l.length : Int) | none => cv)
    ∧ (Learning.analyzeIteration iterationNum domain cg cv nf patterns strategy
        vr rr now history).2.successRate
      = (nf : ℚ) /
          ((max 1 (match vr with | some l => (l.length : Int) | none => cv) : Int) : ℚ)
    ∧ (Learning.analyzeIteration iterationNum domain cg cv nf patterns strategy
        vr rr now history).2.generationEfficiency
      = (nf : ℚ) / ((max 1 cg : Int) : ℚ)
    ∧ (Learning.analyzeIteration iterationNum domain cg cv nf patterns strategy
        vr rr now history).2.newFeedsFound = nf := by
  cases vr <;> exact ⟨rfl, rfl, rfl, rfl, rfl⟩

/-- C5: LearningAgent.get_convergence_assessment is decided purely by
threshold comparisons on the recent new-feed counts: with fewer records
than the window size it reports not converging with confidence 0; when all
counts of the window are zero it reports converging with confidence 0.95;
otherwise an average below 1 gives converging with confidence 0.80, an
average below 3 gives converging with confidence 0.60, and any other case
gives not converging with confidence 0.70. Stated for every positive
window size, the recent window being the last recent_iterations records. -/
theorem learning_convergence_thresholds {Rep Pat : Type} (rec : Int)
    (hrec : 1 ≤ rec) (history : List (Learning.IterRecord Rep Pat)) :
    ((history.length : Int) < rec →
       Learning.getConvergenceAssessment rec history =
         .ok { converging := false, reason := "Not enough iterations".data,
               confidence := 0, recommendation := "Continue iterations".data })
    ∧ (rec ≤ (history.length : Int) →
       ((∀ n ∈ (history.drop (history.length - rec.toNat)).map
            (fun it => it.newFeedsFound), n = 0) →
          Learning.getConvergenceAssessment rec history =
            .ok { converging := true,
                  reason := "No new feeds found in recent iterations".data,
                  confidence := 0.95, recommendation := "Stop discovery".data })
       ∧ (¬ (∀ n ∈ (history.drop (history.length - rec.toNat)).map
              (fun it => it.newFeedsFound), n = 0) →
          ((((((history.drop (history.length - rec.toNat)).map
                (fun it => it.newFeedsFound)).sum : Int) : ℚ) / (rec.toNat : ℚ) < 1 →
             Learning.getConvergenceAssessment rec history =
               .ok { converging := true,
                     reason := "Diminishing returns detected".data,
                     confidence := 0.80,
                     recommendation := "1-2 more iterations then stop".data })
          ∧ (1 ≤ (((((history.drop (history.length - rec.toNat)).map
                (fun it => it.newFeedsFound)).sum : Int) : ℚ) / (rec.toNat : ℚ)) →
             ((((history.drop (history.length - rec.toNat)).map
                (fun it => it.newFeedsFound)).sum : Int) : ℚ) / (rec.toNat : ℚ) < 3 →
             Learning.getConvergenceAssessment rec history =
               .ok { converging := true,
                     reason := "Gradual reduction in new feeds".data,
                     confidence := 0.60,
                     recommendation := "Continue 2-3 more iterations".data })
          ∧ (3 ≤ (((((history.drop (history.length - rec.toNat)).map
                (fun it => it.newFeedsFound)).sum : Int) : ℚ) / (rec.toNat : ℚ)) →
             Learning.getConvergenceAssessment rec history =
               .ok { converging := false,
                     reason := "Good discovery rate maintained".data,
                     confidence := 0.70,
                     recommendation := "Continue iterations".data })))) := by
  constructor
  · intro hlt
    unfold Learning.getConvergenceAssessment
    rw [if_pos hlt]
  · intro hge
    have hrecpos : (0 : Int) < rec := lt_of_lt_of_le one_pos hrec
    have hnotlt : ¬ ((history.length : Int) < rec) := not_lt.mpr hge
    have hslice : pySliceFrom history (-rec) =
        history.drop (history.length - rec.toNat) := by
      unfold pySliceFrom
      rw [if_neg (by omega), Int.neg_neg]
    have hlen : (history.drop (history.length - rec.toNat)).length = rec.toNat := by
      rw [List.length_drop]
      omega
    have hlenmap : ((history.drop (history.length - rec.toNat)).map
        (fun it => it.newFeedsFound)).length = rec.toNat := by
      rw [List.length_map, hlen]
    have hlenne : ¬ (((history.drop (history.length - rec.toNat)).map
        (fun it => it.newFeedsFound)).length = 0) := by
      rw [hlenmap]; omega
    unfold Learning.getConvergenceAssessment
    rw [if_neg hnotlt, hslice, if_neg hlenne]
    constructor
    · intro hall
      rw [if_pos (by simpa [List.all_eq_true] using hall)]
    · intro hnall
      rw [if_neg (by simpa [List.all_eq_true] using hnall), hlenmap]
      refine ⟨fun h1 => ?_, fun h1 h3 => ?_, fun h3 => ?_⟩
      · rw [if_pos h1]
      · rw [if_neg (not_lt.mpr h1), if_pos h3]
      · rw [if_neg (by exact not_lt.mpr (le_trans (by norm_num) h3)),
            if_neg (not_lt.mpr h3)]

/-- C5 witness: with an empty history and the default window of three
iterations, the agent reports not converging with confidence 0. -/
theorem learning_convergence_thresholds_witness :
    @Learning.getConvergenceAssessment Unit Unit 3 [] =
      .ok { converging := false, reason := "Not enough iterations".data,
            confidence := 0, recommendation := "Continue iterations".data } :=
  (learning_convergence_thresholds 3 (by norm_num) []).1 (by norm_num)

theorem pair_lookup_cons {β : Type} (k : PyStr) (v : β) (t : List (PyStr × β))
    (u : PyStr) :
    (((k, v) :: t).lookup u) = if u = k then some v else t.lookup u := by
  by_cases h : u = k
  · subst h; simp [List.lookup]
  · have hb : (u == k) = false := by simp [h]
    simp [List.lookup, hb, h]

theorem pair_lookup_append {β : Type} (l1 l2 : List (PyStr × β)) (u : PyStr) :
    ((l1 ++ l2).lookup u) = ((l1.lookup u).or (l2.lookup u)) := by
  induction l1 with
  | nil => rfl
  | cons kv t ih =>
    obtain ⟨k, v⟩ := kv
    rw [List.cons_append, pair_lookup_cons, pair_lookup_cons]
    by_cases h : u = k
    · rw [if_pos h, if_pos h]; rfl
    · rw [if_neg h, if_neg h]; exact ih

theorem pair_keys_contains_eq {β : Type} (acc : List (PyStr × β)) (u : PyStr) :
    ((acc.map Prod.fst).contains u) = (acc.lookup u).isSome := by
  induction acc with
  | nil => rfl
  | cons kv t ih =>
    obtain ⟨k, v⟩ := kv
    rw [List.map_cons, List.contains_cons, pair_lookup_cons]
    by_cases h : u = k
    · have hb : (u == k) = true := by simp [h]
      rw [if_pos h, hb, Bool.true_or]; rfl
    · have hb : (u == k) = false := by simp [h]
      rw [if_neg h, hb, Bool.false_or, ih]

theorem uniqueFeeds_lookup_go {D : Type} (getUrl : D → Option PyStr) (u : PyStr)
    (hu : u ≠ []) :
    ∀ (feeds : List (Coordinator.PyFeed D)) (acc : List (PyStr × (D ⊕ PyStr))),
      ((feeds.foldl (Coordinator.addFeed getUrl) acc).lookup u) =
        ((acc.lookup u).or
          ((feeds.find? (fun f => Coordinator.urlOf getUrl f == some u)).map
            Coordinator.entryOf)) := by
  intro feeds
  induction feeds with
  | nil =>
    intro acc
    cases h : acc.lookup u <;> simp [h]
  | cons f t ih =>
    intro acc
    rw [List.foldl_cons]
    cases hurl : Coordinator.urlOf getUrl f with
    | none =>
      have ha : Coordinator.addFeed getUrl acc f = acc := by
        simp [Coordinator.addFeed, hurl]
      have hp : ¬ ((fun f => Coordinator.urlOf getUrl f == some u) f = true) := by
        simp [hurl]
      rw [ha, ih,
        List.find?_cons_of_neg
          (p := fun f => Coordinator.urlOf getUrl f == some u) _ hp]
    | some v =>
      by_cases hveq : v = u
      · subst hveq
        have hp : (fun f => Coordinator.urlOf getUrl f == some v) f = true := by
          simp [hurl]
        rw [List.find?_cons_of_pos
          (p := fun f => Coordinator.urlOf getUrl f == some v) _ hp]
        by_cases hc : ((acc.map Prod.fst).contains v) = true
        · have ha : Coordinator.addFeed getUrl acc f = acc := by
            simp only [Coordinator.addFeed, hurl]
            rw [if_neg hu, if_pos hc]
          rw [ha, ih]
          have hsome : (acc.lookup v).isSome := by
            rw [← pair_keys_contains_eq]; exact hc
          obtain ⟨w, hw⟩ := Option.isSome_iff_exists.mp hsome
          rw [hw]
          rfl
        · have ha : Coordinator.addFeed getUrl acc f =
              acc ++ [(v, Coordinator.entryOf f)] := by
            simp only [Coordinator.addFeed, hurl]
            rw [if_neg hu, if_neg hc]
          have hnone : acc.lookup v = none := by
            have h2 := pair_keys_contains_eq acc v
            rw [Bool.eq_false_iff.mpr hc] at h2
            exact Option.not_isSome_iff_eq_none.mp (by rw [← h2]; simp)
          rw [ha, ih, pair_lookup_append, hnone, pair_lookup_cons, if_pos rfl]
          rfl
      · have hp : ¬ ((fun f => Coordinator.urlOf getUrl f == some u) f = true) := by
          simp [hurl, hveq]
        rw [List.find?_cons_of_neg
          (p := fun f => Coordinator.urlOf getUrl f == some u) _ hp]
        have hkeep : (Coordinator.addFeed getUrl acc f).lookup u = acc.lookup u := by
          simp only [Coordinator.addFeed, hurl]
          by_cases hv0 : v = []
          · rw [if_pos hv0]
          · rw [if_neg hv0]
            by_cases hc : ((acc.map Prod.fst).contains v) = true
            · rw [if_pos hc]
            · rw [if_neg hc, pair_lookup_append, pair_lookup_cons]
              rw [if_neg (fun h => hveq h.symm)]
              cases h : acc.lookup u <;> simp [h]
        rw [ih, hkeep]

theorem addFeed_keys_nodup {D : Type} (getUrl : D → Option PyStr)
    (acc : List (PyStr × (D ⊕ PyStr))) (f : Coordinator.PyFeed D)
    (h : ((acc.map Prod.fst).Nodup)) :
    (((Coordinator.addFeed getUrl acc f).map Prod.fst).Nodup) := by
  unfold Coordinator.addFeed
  cases hurl : Coordinator.urlOf getUrl f with
  | none => exact h
  | some v =>
    dsimp only
    by_cases hv0 : v = []
    · rw [if_pos hv0]; exact h
    · rw [if_neg hv0]
      by_cases hc : ((acc.map Prod.fst).contains v) = true
      · rw [if_pos hc]; exact h
      · rw [if_neg hc]
        have hnotmem : v ∉ acc.map Prod.fst := by
          intro hmem
          exact hc (by simpa [List.contains_cons] using hmem)
        rw [List.map_append]
        refine List.Nodup.append h (List.nodup_singleton _) ?_
        intro a ha hb
        rw [show (List.map Prod.fst [(v, Coordinator.entryOf f)]) = [v] from rfl,
          List.mem_singleton] at hb
        subst hb
        exact hnotmem ha

theorem uniqueFeeds_keys_nodup_go {D : Type} (getUrl : D → Option PyStr) :
    ∀ (feeds : List (Coordinator.PyFeed D)) (acc : List (PyStr × (D ⊕ PyStr))),
      ((acc.map Prod.fst).Nodup) →
      (((feeds.foldl (Coordinator.addFeed getUrl) acc).map Prod.fst).Nodup) := by
  intro feeds
  induction feeds with
  | nil => intro acc h; exact h
  | cons f t ih =>
    intro acc h
    rw [List.foldl_cons]
    exact ih _ (addFeed_keys_nodup getUrl acc f h)

/-- C2: the discovered feed set compiled by _phase_final_analysis is
deduplicated by URL. The unique_feeds mapping built over
all_discovered_feeds ++ validated_feeds has pairwise distinct URL keys, the
entry bound to a URL is the first element of the merged list carrying that
URL (kept as the dict itself for dict entries, and as the url wrapper dict
for bare strings, per entryOf), and discovered_feeds lists exactly the
values of that mapping. -/
theorem coordinator_discovered_feeds_dedup {D : Type} (getUrl : D → Option PyStr)
    (allDiscovered validated : List (Coordinator.PyFeed D)) :
    ((Coordinator.uniqueFeeds getUrl (allDiscovered ++ validated)).map Prod.fst).Nodup
    ∧ (∀ u : PyStr, u ≠ [] →
        ((Coordinator.uniqueFeeds getUrl (allDiscovered ++ validated)).lookup u) =
          ((allDiscovered ++ validated).find?
            (fun f => Coordinator.urlOf getUrl f == some u)).map Coordinator.entryOf)
    ∧ Coordinator.discoveredFeeds getUrl allDiscovered validated =
        (Coordinator.uniqueFeeds getUrl (allDiscovered ++ validated)).map Prod.snd := by
  refine ⟨?_, ?_, rfl⟩
  · exact uniqueFeeds_keys_nodup_go getUrl _ [] (by simp)
  · intro u hu
    rw [Coordinator.uniqueFeeds, uniqueFeeds_lookup_go getUrl u hu _ []]
    rfl

/-- C2 witness: with a URL seen first as a bare string and again as a dict,
the kept entry is the first occurrence. -/
theorem coordinator_discovered_feeds_dedup_witness :
    ((Coordinator.uniqueFeeds (fun _ : Unit => some "http://a".data)
        ([Coordinator.PyFeed.str "http://a".data] ++
         [Coordinator.PyFeed.dct ()])).lookup "http://a".data) =
      (([Coordinator.PyFeed.str "http://a".data] ++
        [Coordinator.PyFeed.dct ()]).find?
          (fun f => Coordinator.urlOf (fun _ : Unit => some "http://a".data) f
            == some "http://a".data)).map Coordinator.entryOf :=
  (coordinator_discovered_feeds_dedup (fun _ : Unit => some "http://a".data)
    [Coordinator.PyFeed.str "http://a".data]
    [Coordinator.PyFeed.dct ()]).2.1 "http://a".data (by decide)

theorem runSystematic_append {C : Type} (contentOf : Diksha.Combo → List C)
    (l1 l2 : List Diksha.Combo) : ∀ cps : List PyStr,
    Diksha.runSystematic contentOf cps (l1 ++ l2) =
      ((Diksha.runSystematic contentOf
          (Diksha.runSystematic contentOf cps l1).1 l2).1,
       (Diksha.runSystematic contentOf cps l1).2 ++
         (Diksha.runSystematic contentOf
           (Diksha.runSystematic contentOf cps l1).1 l2).2) := by
  induction l1 with
  | nil => intro cps; simp [Diksha.runSystematic]
  | cons c t ih =>
    intro cps
    rw [List.cons_append]
    simp only [Diksha.runSystematic]
    by_cases h : cps.contains (Diksha.keyOf c) = true
    · simp only [if_pos h, ih, List.cons_append]
    · simp only [if_neg h, ih, List.cons_append]

theorem runSystematic_events_length {C : Type} (contentOf : Diksha.Combo → List C) :
    ∀ (l : List Diksha.Combo) (cps : List PyStr),
      (Diksha.runSystematic contentOf cps l).2.length = l.length := by
  intro l
  induction l with
  | nil => intro cps; rfl
  | cons c t ih =>
    intro cps
    simp only [Diksha.runSystematic]
    by_cases h : cps.contains (Diksha.keyOf c) = true
    · simp only [if_pos h, List.length_cons, ih]
    · simp only [if_neg h, List.length_cons, ih]

/-- C8: DIKSHADiscoveryAgent.discover_systematic is checkpointed. In a run
over any list of combinations, the combination at any position is skipped
(no API request recorded for it) exactly when its checkpoint key is already
present when its turn comes; otherwise the API is queried once for it and a
checkpoint is saved exactly when the returned content is non-empty, so a
combination that returned no content leaves the checkpoint set unchanged
and is retried on the next run. -/
theorem diksha_discover_systematic_checkpointing {C : Type}
    (contentOf : Diksha.Combo → List C) (cps0 : List PyStr)
    (pre : List Diksha.Combo) (c : Diksha.Combo) (post : List Diksha.Combo) :
    ((Diksha.runSystematic contentOf cps0 (pre ++ c :: post)).2.get? pre.length
        = some (c, Diksha.Act.skipped)
      ↔ Diksha.keyOf c ∈ (Diksha.runSystematic contentOf cps0 pre).1)
    ∧ (Diksha.keyOf c ∉ (Diksha.runSystematic contentOf cps0 pre).1 →
        (Diksha.runSystematic contentOf cps0 (pre ++ c :: post)).2.get? pre.length
          = some (c, Diksha.Act.requested (contentOf c) (!(contentOf c).isEmpty)))
    ∧ (Diksha.keyOf c ∈ (Diksha.runSystematic contentOf cps0 (pre ++ [c])).1
        ↔ (Diksha.keyOf c ∈ (Diksha.runSystematic contentOf cps0 pre).1 ∨
            contentOf c ≠ [])) := by
  have hlen := runSystematic_events_length contentOf pre cps0
  have hget : ∀ (x : Diksha.Combo × Diksha.Act C) (l2 : List (Diksha.Combo × Diksha.Act C)),
      (((Diksha.runSystematic contentOf cps0 pre).2 ++ x :: l2).get? pre.length)
        = some x := by
    intro x l2
    rw [List.get?_append_right (le_of_eq hlen), hlen, Nat.sub_self]
    rfl
  rw [runSystematic_append contentOf pre (c :: post) cps0,
      runSystematic_append contentOf pre [c] cps0]
  by_cases hm : ((Diksha.runSystematic contentOf cps0 pre).1.contains
      (Diksha.keyOf c)) = true
  · have hmem : Diksha.keyOf c ∈ (Diksha.runSystematic contentOf cps0 pre).1 := by
      simpa using hm
    refine ⟨?_, ?_, ?_⟩
    · simp only [Diksha.runSystematic, if_pos hm]
      rw [hget]
      simp [hmem]
    · intro habs; exact absurd hmem habs
    · simp only [Diksha.runSystematic, if_pos hm]
      simp [hmem]
  · have hmem : Diksha.keyOf c ∉ (Diksha.runSystematic contentOf cps0 pre).1 := by
      intro habs
      exact hm (by simpa using habs)
    refine ⟨?_, ?_, ?_⟩
    · simp only [Diksha.runSystematic, if_neg hm]
      rw [hget]
      simp only [Option.some.injEq, Prod.mk.injEq]
      constructor
      · intro h; cases h.2
      · intro h; exact absurd h hmem
    · intro _
      simp only [Diksha.runSystematic, if_neg hm]
      rw [hget]
    · simp only [Diksha.runSystematic, if_neg hm]
      by_cases hc : contentOf c = []
      · simp [hc, Diksha.runSystematic, hmem]
      · have : (!(contentOf c).isEmpty) = true := by
          simp [List.isEmpty_iff, hc]
        simp [this, Diksha.runSystematic, hc]

/-- C8 witness: a combination whose checkpoint is absent and whose API call
returns no content is recorded as requested with no checkpoint saved. -/
theorem diksha_discover_systematic_checkpointing_witness :
    ((Diksha.runSystematic (fun _ => ([] : List Unit)) []
        ([] ++ { board := "b".data, grade := "g".data, subject := "s".data,
                 medium := none : Diksha.Combo } :: [])).2.get? 0
      = some ({ board := "b".data, grade := "g".data, subject := "s".data,
                medium := none : Diksha.Combo },
              Diksha.Act.requested ([] : List Unit) false)) :=
  (diksha_discover_systematic_checkpointing (fun _ => ([] : List Unit)) [] []
    { board := "b".data, grade := "g".data, subject := "s".data, medium := none }
    []).2.1 (by simp [Diksha.runSystematic])

theorem dedupKeepFirst_not_mem_seen :
    ∀ (l : List RAG.GenUrl) (seen : List RAG.GenUrl),
      ∀ x ∈ RAG.dedupKeepFirst seen l, x ∉ seen := by
  intro l
  induction l with
  | nil => intro seen x hx; cases hx
  | cons u rest ih =>
    intro seen x hx
    rw [RAG.dedupKeepFirst] at hx
    by_cases hc : (seen.contains u) = true
    · rw [if_pos hc] at hx
      exact ih seen x hx
    · rw [if_neg hc] at hx
      rcases List.mem_cons.mp hx with h | h
      · subst h
        intro habs
        exact hc (by simpa using habs)
      · intro habs
        exact ih (u :: seen) x h (List.mem_cons_of_mem u habs)

theorem dedupKeepFirst_nodup :
    ∀ (l : List RAG.GenUrl) (seen : List RAG.GenUrl),
      (RAG.dedupKeepFirst seen l).Nodup := by
  intro l
  induction l with
  | nil => intro seen; exact List.nodup_nil
  | cons u rest ih =>
    intro seen
    rw [RAG.dedupKeepFirst]
    by_cases hc : (seen.contains u) = true
    · rw [if_pos hc]; exact ih seen
    · rw [if_neg hc]
      refine List.nodup_cons.mpr ⟨?_, ih (u :: seen)⟩
      intro habs
      exact dedupKeepFirst_not_mem_seen rest (u :: seen) u habs (List.mem_cons_self u seen)

theorem dedupKeepFirst_subset :
    ∀ (l : List RAG.GenUrl) (seen : List RAG.GenUrl),
      ∀ x ∈ RAG.dedupKeepFirst seen l, x ∈ l := by
  intro l
  induction l with
  | nil => intro seen x hx; cases hx
  | cons u rest ih =>
    intro seen x hx
    rw [RAG.dedupKeepFirst] at hx
    by_cases hc : (seen.contains u) = true
    · rw [if_pos hc] at hx
      exact List.mem_cons_of_mem u (ih seen x hx)
    · rw [if_neg hc] at hx
      rcases List.mem_cons.mp hx with h | h
      · rw [h]; exact List.mem_cons_self _ _
      · exact List.mem_cons_of_mem u (ih (u :: seen) x h)

theorem pySliceTo_sublist {α : Type} (l : List α) (m : Int) :
    (pySliceTo l m).Sublist l := by
  unfold pySliceTo
  by_cases h : (0 : Int) ≤ m
  · rw [if_pos h]; exact List.take_sublist _ _
  · rw [if_neg h]; exact List.take_sublist _ _

theorem pySliceTo_length_le {α : Type} (l : List α) (m : Int) (h : 0 ≤ m) :
    (pySliceTo l m).length ≤ m.toNat := by
  unfold pySliceTo
  rw [if_pos h, List.length_take]
  exact Nat.min_le_left _ _

theorem stripInternalParams_clean (u0 : RAG.GenUrl) :
    ∀ kv ∈ (RAG.stripInternalParams u0).query,
      pyLower kv.1 ≠ "confidence".data ∧ pyLower kv.1 ≠ "reasoning".data := by
  intro kv hkv
  rw [RAG.stripInternalParams] at hkv
  have h := (List.mem_filter.mp hkv).2
  constructor
  · intro habs
    simp [habs] at h
  · intro habs
    simp [habs] at h

/-- C7 (amended): IntelligentURLGenerator.generate_candidates returns, for
every non-negative max_candidates, at most max_candidates URLs (a negative
max_candidates instead drops trailing entries, per Python slice semantics);
the result never contains duplicates; the internal confidence and reasoning
query parameters are stripped from every returned URL; the systematic
strategy draws its URLs from the cartesian product of at most the first
five observed values of each learned parameter and is capped at 25 URLs;
and an empty patterns dict yields the empty list. -/
theorem rag_generate_candidates_spec (baseUrl : PyStr) (p : RAG.Patterns)
    (strategy : PyStr) (maxCandidates : Int) :
    (0 ≤ maxCandidates →
      (RAG.generateCandidates baseUrl p strategy maxCandidates).length
        ≤ maxCandidates.toNat)
    ∧ (RAG.generateCandidates baseUrl p strategy maxCandidates).Nodup
    ∧ (∀ u ∈ RAG.generateCandidates baseUrl p strategy maxCandidates,
        ∀ kv ∈ u.query,
          pyLower kv.1 ≠ "confidence".data ∧ pyLower kv.1 ≠ "reasoning".data)
    ∧ (RAG.generateSystematic baseUrl p).length ≤ 25
    ∧ (∀ u ∈ RAG.generateSystematic baseUrl p,
        ∃ combination ∈ RAG.cartesianProduct
            ((p.parameters.getD []).map (fun kv => kv.2.observedValues.take 5)),
          u = RAG.buildUrl baseUrl
            (((p.parameters.getD []).map Prod.fst).zip combination))
    ∧ (RAG.generateCandidates baseUrl
        { suggestions := none, parameters := none, extraKeys := [] }
        strategy maxCandidates = []) := by
  have hsys_len : (RAG.generateSystematic baseUrl p).length ≤ 25 := by
    rw [RAG.generateSystematic]
    by_cases he : (p.parameters.getD []).isEmpty = true
    · rw [if_pos he]; exact Nat.zero_le _
    · rw [if_neg he]
      rw [List.length_map, List.length_take]
      exact Nat.min_le_left _ _
  have hsys_mem : ∀ u ∈ RAG.generateSystematic baseUrl p,
      ∃ combination ∈ RAG.cartesianProduct
          ((p.parameters.getD []).map (fun kv => kv.2.observedValues.take 5)),
        u = RAG.buildUrl baseUrl
          (((p.parameters.getD []).map Prod.fst).zip combination) := by
    intro u hu
    rw [RAG.generateSystematic] at hu
    by_cases he : (p.parameters.getD []).isEmpty = true
    · rw [if_pos he] at hu; cases hu
    · rw [if_neg he] at hu
      obtain ⟨combination, hcm, heq⟩ := List.mem_map.mp hu
      exact ⟨combination, List.take_subset 25 _ hcm, heq.symm⟩
  by_cases hempty : p.isEmptyDict = true
  · have hres : RAG.generateCandidates baseUrl p strategy maxCandidates = [] := by
      rw [RAG.generateCandidates, if_pos hempty]
    refine ⟨?_, ?_, ?_, hsys_len, hsys_mem, ?_⟩
    · intro _; rw [hres]; exact Nat.zero_le _
    · rw [hres]; exact List.nodup_nil
    · intro u hu; rw [hres] at hu; cases hu
    · rw [RAG.generateCandidates]; rfl
  · have hres : RAG.generateCandidates baseUrl p strategy maxCandidates =
        pySliceTo
          (RAG.dedupKeepFirst []
            (((if strategy = "suggested".data then
                RAG.generateFromSuggestions baseUrl p
              else if strategy = "systematic".data then
                RAG.generateSystematic baseUrl p
              else RAG.generateFromSuggestions baseUrl p ++
                RAG.generateSystematic baseUrl p)).map RAG.stripInternalParams))
          maxCandidates := by
      rw [RAG.generateCandidates, if_neg hempty]
    refine ⟨?_, ?_, ?_, hsys_len, hsys_mem, ?_⟩
    · intro hm
      rw [hres]
      exact pySliceTo_length_le _ _ hm
    · rw [hres]
      exact (pySliceTo_sublist _ _).nodup (dedupKeepFirst_nodup _ [])
    · intro u hu
      rw [hres] at hu
      have h1 : u ∈ RAG.dedupKeepFirst []
          (((if strategy = "suggested".data then
              RAG.generateFromSuggestions baseUrl p
            else if strategy = "systematic".data then
              RAG.generateSystematic baseUrl p
            else RAG.generateFromSuggestions baseUrl p ++
              RAG.generateSystematic baseUrl p)).map RAG.stripInternalParams) :=
        (pySliceTo_sublist _ _).mem hu
      have h2 := dedupKeepFirst_subset _ [] u h1
      obtain ⟨u0, _, hequ⟩ := List.mem_map.mp h2
      rw [← hequ]
      exact stripInternalParams_clean u0
    · rw [RAG.generateCandidates]; rfl

/-- C7 counterexample: with a URL-count int that is negative, Python slice
semantics still return URLs (dropping trailing entries), so the result can
exceed max_candidates. With two distinct suggestion URLs and
max_candidates = -1, one URL is returned and one is not at most -1. -/
theorem rag_generate_candidates_negative_max_counterexample :
    ¬ (((RAG.generateCandidates "http://x".data
          { suggestions := some [[("a".data, some "1".data)],
                                 [("a".data, some "2".data)]],
            parameters := none, extraKeys := [] }
          "hybrid".data (-1)).length : Int) ≤ (-1)) := by decide

/-- C7 witness: with one suggestion and a budget of 50, the generator
returns at most 50 URLs. -/
theorem rag_generate_candidates_spec_witness :
    (RAG.generateCandidates "http://x".data
        { suggestions := some [[("a".data, some "1".data)]], parameters := none,
          extraKeys := [] } "hybrid".data 50).length ≤ (50 : Int).toNat :=
  (rag_generate_candidates_spec "http://x".data
    { suggestions := some [[("a".data, some "1".data)]], parameters := none,
      extraKeys := [] } "hybrid".data 50).1 (by norm_num)

/-- C10 counterexample: SQLite treats a negative LIMIT as no limit, so with
one stored row fetch_recent(-1) returns one record, which is not at most
the limit. -/
theorem validation_store_fetch_recent_negative_limit_counterexample :
    ¬ (((ValidationStore.fetchRecent (fun _ => none)
          { rows := [{ id := 1, url := "u".data, timestamp := "t".data,
                       source := "s".data, validator := "ai".data, valid := 1,
                       qualityScore := none, runId := none, report := "x".data }],
            nextId := 2, indexes := [] } (-1)).length : Int) ≤ (-1)) := by decide

/-- C10 (amended): fetch_recent is total on stored data for every
non-negative limit: it returns at most limit records, ordered by timestamp
descending, selected among the stored rows, and a stored row whose report
column fails to parse as JSON is returned with an empty dict as its report
field rather than raising. A negative limit instead returns all rows,
because SQLite treats a negative LIMIT as no limit. -/
theorem validation_store_fetch_recent_total
    (loads : PyStr → Option (List (PyStr × PyStr))) (db : ValidationStore.DB)
    (limit : Int) (hl : 0 ≤ limit) :
    (ValidationStore.fetchRecent loads db limit).length ≤ limit.toNat
    ∧ List.Pairwise (fun a b => lexLe b.timestamp a.timestamp = true)
        (ValidationStore.fetchRecent loads db limit)
    ∧ (∀ r ∈ ValidationStore.selectRows db limit, r ∈ db.rows)
    ∧ (∀ r ∈ ValidationStore.selectRows db limit,
        ValidationStore.toFetched loads r ∈ ValidationStore.fetchRecent loads db limit
        ∧ (loads r.report = none →
            (ValidationStore.toFetched loads r).report = [])) := by
  have hsel : ValidationStore.selectRows db limit =
      (List.insertionSort ValidationStore.tsDesc db.rows).take limit.toNat := by
    rw [ValidationStore.selectRows]
    simp only [if_neg (not_lt.mpr hl)]
  refine ⟨?_, ?_, ?_, ?_⟩
  · rw [ValidationStore.fetchRecent, List.length_map, hsel, List.length_take]
    exact Nat.min_le_left _ _
  · rw [ValidationStore.fetchRecent]
    rw [List.pairwise_map]
    refine List.Pairwise.sublist ?_ (List.sorted_insertionSort ValidationStore.tsDesc db.rows)
    rw [hsel]
    exact List.take_sublist _ _
  · intro r hr
    rw [hsel] at hr
    exact (List.perm_insertionSort ValidationStore.tsDesc db.rows).subset
      (List.take_subset _ _ hr)
  · intro r hr
    constructor
    · rw [ValidationStore.fetchRecent]
      exact List.mem_map_of_mem _ hr
    · intro hnone
      simp [ValidationStore.toFetched, hnone]

/-- C10 witness: with limit 0 nothing is returned. -/
theorem validation_store_fetch_recent_total_witness :
    (ValidationStore.fetchRecent (fun _ => none)
      { rows := [{ id := 1, url := "u".data, timestamp := "t".data,
                   source := "s".data, validator := "ai".data, valid := 1,
                   qualityScore := none, runId := none, report := "x".data }],
        nextId := 2, indexes := [] } 0).length ≤ (0 : Int).toNat :=
  (validation_store_fetch_recent_total (fun _ => none)
    { rows := [{ id := 1, url := "u".data, timestamp := "t".data,
                 source := "s".data, validator := "ai".data, valid := 1,
                 qualityScore := none, runId := none, report := "x".data }],
      nextId := 2, indexes := [] } 0 (by norm_num)).1

/-- C9: validating a URL that is already in the validation cache is
idempotent: validate_feed returns exactly the cached (valid, report) pair,
leaves the whole agent state unchanged (no append to validated_feeds or
rejected_feeds, no new store row), and performs no HTTP fetch, no LLM
assessment and no store save. -/
theorem validator_validate_feed_cache_idempotent (minQ : Int)
    (fetch : Validator.FetchOutcome) (assess : Except PyStr Validator.Assessment)
    (now utcNow : PyStr) (dumps : Validator.Report → PyStr) (url source : PyStr)
    (runId : Option PyStr) (s : Validator.VState) (pr : Bool × Validator.Report)
    (hhttp : ("http".data.isPrefixOf (pyTrim url)) = true)
    (hc : s.cache.lookup (pyTrim url) = some pr) :
    Validator.validateFeed minQ fetch assess now utcNow dumps
        (.str url) source runId s =
      (pr, s, { httpFetches := 0, llmCalls := 0, storeSaves := 0 }) := by
  have hne : ¬ (pyTrim url = []) := by
    intro h
    rw [h] at hhttp
    exact absurd hhttp (by decide)
  unfold Validator.validateFeed
  simp only
  rw [if_neg (by simp [hne, hhttp]), hc]

/-- C9 witness: a second call on a cached URL returns the cached pair with
no effect on state. -/
theorem validator_validate_feed_cache_idempotent_witness :
    Validator.validateFeed 60 .timeout (.error []) "t1".data "t2".data
        (fun _ => []) (.str "http://a".data) "legit".data none
        { cache := [("http://a".data,
            (true, { url := "http://a".data, timestamp := "t0".data }))],
          validatedFeeds := [], rejectedFeeds := [], store := none } =
      ((true, { url := "http://a".data, timestamp := "t0".data }),
       { cache := [("http://a".data,
           (true, { url := "http://a".data, timestamp := "t0".data }))],
         validatedFeeds := [], rejectedFeeds := [], store := none },
       { httpFetches := 0, llmCalls := 0, storeSaves := 0 }) :=
  validator_validate_feed_cache_idempotent 60 .timeout (.error []) "t1".data
    "t2".data (fun _ => []) "http://a".data "legit".data none
    { cache := [("http://a".data,
        (true, { url := "http://a".data, timestamp := "t0".data }))],
      validatedFeeds := [], rejectedFeeds := [], store := none }
    (true, { url := "http://a".data, timestamp := "t0".data })
    (by decide) (by decide)

/-- C3: validate_feed decision structure. For a fresh URL (not in the
cache): when the fetch succeeds with status below 400 and the content is
recognized as an RSS/Atom feed, the result is valid exactly when the
LLM-assessed quality score reaches min_quality_score and the report error
list is empty (and when the assessment raises, the result is invalid with
the failure recorded); every earlier failure (URL not starting with http,
HTTP status at least 400, timeout, connection error, or content not in
feed format) yields valid = False with the failure recorded in the report
errors. -/
theorem validator_validate_feed_decision (minQ : Int) (now utcNow : PyStr)
    (dumps : Validator.Report → PyStr) (url source : PyStr)
    (runId : Option PyStr) (s : Validator.VState) :
    (¬ (("http".data.isPrefixOf (pyTrim url)) = true) →
      ∀ (fetch : Validator.FetchOutcome)
        (assess : Except PyStr Validator.Assessment),
        (Validator.validateFeed minQ fetch assess now utcNow dumps
            (.str url) source runId s).1
          = (false, { url := pyTrim url, timestamp := now,
                      errors := ["Invalid URL format".data] }))
    ∧ ((("http".data.isPrefixOf (pyTrim url)) = true) →
       s.cache.lookup (pyTrim url) = none →
       ((∀ (status : Nat) (text : PyStr) (a : Validator.Assessment),
           ¬ 400 ≤ status → Validator.isFeedFormat (text.take 5000) = true →
           ((Validator.validateFeed minQ (.success status text) (.ok a) now
               utcNow dumps (.str url) source runId s).1.1 = true
             ↔ (minQ ≤ a.score ∧
                (Validator.validateFeed minQ (.success status text) (.ok a) now
                  utcNow dumps (.str url) source runId s).1.2.errors = [])))
        ∧ (∀ (status : Nat) (text e : PyStr),
            ¬ 400 ≤ status → Validator.isFeedFormat (text.take 5000) = true →
            ((Validator.validateFeed minQ (.success status text) (.error e) now
                utcNow dumps (.str url) source runId s).1.1 = false
             ∧ ("AI assessment failed: ".data ++ e.take 50) ∈
                (Validator.validateFeed minQ (.success status text) (.error e)
                  now utcNow dumps (.str url) source runId s).1.2.errors))
        ∧ (∀ assess : Except PyStr Validator.Assessment,
            ((Validator.validateFeed minQ .timeout assess now utcNow dumps
                (.str url) source runId s).1.1 = false
             ∧ "HTTP request timeout".data ∈
                (Validator.validateFeed minQ .timeout assess now utcNow dumps
                  (.str url) source runId s).1.2.errors))
        ∧ (∀ (msg : PyStr) (assess : Except PyStr Validator.Assessment),
            ((Validator.validateFeed minQ (.connErr msg) assess now utcNow dumps
                (.str url) source runId s).1.1 = false
             ∧ ("Connection failed: ".data ++ msg.take 50) ∈
                (Validator.validateFeed minQ (.connErr msg) assess now utcNow
                  dumps (.str url) source runId s).1.2.errors))
        ∧ (∀ (status : Nat) (text : PyStr)
             (assess : Except PyStr Validator.Assessment), 400 ≤ status →
            ((Validator.validateFeed minQ (.success status text) assess now
                utcNow dumps (.str url) source runId s).1.1 = false
             ∧ ("HTTP ".data ++ natToPyStr status) ∈
                (Validator.validateFeed minQ (.success status text) assess now
                  utcNow dumps (.str url) source runId s).1.2.errors))
        ∧ (∀ (status : Nat) (text : PyStr)
             (assess : Except PyStr Validator.Assessment),
            ¬ 400 ≤ status → Validator.isFeedFormat (text.take 5000) = false →
            ((Validator.validateFeed minQ (.success status text) assess now
                utcNow dumps (.str url) source runId s).1.1 = false
             ∧ "Not a valid RSS/Atom feed".data ∈
                (Validator.validateFeed minQ (.success status text) assess now
                  utcNow dumps (.str url) source runId s).1.2.errors)))) := by
  constructor
  · intro hbad fetch assess
    unfold Validator.validateFeed
    simp only
    rw [if_pos (Or.inr hbad)]
  · intro hhttp hc
    have hne : ¬ (pyTrim url = []) := by
      intro h
      rw [h] at hhttp
      exact absurd hhttp (by decide)
    have hcond : ¬ (pyTrim url = [] ∨ ¬ (("http".data.isPrefixOf (pyTrim url)) = true)) := by
      simp [hne, hhttp]
    refine ⟨?_, ?_, ?_, ?_, ?_, ?_⟩
    · intro status text a hst hfmt
      unfold Validator.validateFeed
      simp only
      rw [if_neg hcond, hc]
      simp only [if_neg hst, hfmt, if_neg (by simp : ¬ (true : Bool) = false)]
      simp [Bool.and_eq_true, decide_eq_true_iff]
    · intro status text e hst hfmt
      unfold Validator.validateFeed
      simp only
      rw [if_neg hcond, hc]
      simp only [if_neg hst, hfmt]
      simp
    · intro assess
      unfold Validator.validateFeed
      simp only
      rw [if_neg hcond, hc]
      simp [Validator.rejectAfterCache]
    · intro msg assess
      unfold Validator.validateFeed
      simp only
      rw [if_neg hcond, hc]
      simp [Validator.rejectAfterCache]
    · intro status text assess hst
      unfold Validator.validateFeed
      simp only
      rw [if_neg hcond, hc]
      simp only [if_pos hst]
      simp [Validator.rejectAfterCache]
    · intro status text assess hst hfmt
      unfold Validator.validateFeed
      simp only
      rw [if_neg hcond, hc]
      simp only [if_neg hst, hfmt]
      simp [Validator.rejectAfterCache]

/-- C3 witness: a fresh URL whose fetch times out is reported invalid. -/
theorem validator_validate_feed_decision_witness :
    (Validator.validateFeed 60 .timeout (.error []) "t1".data "t2".data
        (fun _ => []) (.str "http://a".data) "legit".data none
        { cache := [], validatedFeeds := [], rejectedFeeds := [],
          store := none }).1.1 = false :=
  (((validator_validate_feed_decision 60 "t1".data "t2".data (fun _ => [])
      "http://a".data "legit".data none
      { cache := [], validatedFeeds := [], rejectedFeeds := [],
        store := none }).2 (by decide) rfl).2.2.1 (.error [])).1
